import Mathlib

/-!
Verification of the AmbonMUD tooling (`tools/ws_rat_swarm_wander.py` and
`tools/convert_rom_area.py`) against its natural-language specification.

Python strings are modelled as lists of characters (`Str`), Python dicts as
association lists with in-place update, floats as rationals, and the
pseudo-random draws as explicit parameters (`random.random()` becomes a
rational argument, `random.choice` an index argument).  Loops that walk an
index through a list of lines are modelled as structural recursion on the
remaining suffix, with a fuel parameter where the step is not structural;
fuel is always chosen at call sites so that it cannot run out on inputs the
Python code terminates on, and exhaustion is reported as a distinct error.
-/

/-- Python strings modelled as lists of characters. -/
abbrev Str := List Char

/-- Characters stripped by Python's `str.strip()` / `str.rstrip()`
(ASCII whitespace plus the common Unicode space characters). -/
def pyIsSpace (c : Char) : Bool :=
  c = ' ' || ('\x09' ≤ c && c ≤ '\x0d') || ('\x1c' ≤ c && c ≤ '\x1f') ||
  c = '\x85' || c = '\xa0' || c = '\u1680' || ('\u2000' ≤ c && c ≤ '\u200a') ||
  c = '\u2028' || c = '\u2029' || c = '\u202f' || c = '\u205f' || c = '\u3000'

/-- Python `s.strip()`. -/
def pyStrip (l : Str) : Str :=
  ((l.dropWhile pyIsSpace).reverse.dropWhile pyIsSpace).reverse

/-- Python `s.rstrip()`. -/
def pyRstrip (l : Str) : Str := (l.reverse.dropWhile pyIsSpace).reverse

/-- Python `s.replace("\r", "")`. -/
def removeCR (l : Str) : Str := l.filter (fun c => c ≠ '\r')

/-- Python `s.lower()` (ASCII). -/
def pyLower (l : Str) : Str := l.map Char.toLower

/-- Python `s.split()` with no separator: split on whitespace runs,
dropping empty words. -/
def pySplitWS (l : Str) : List Str := (l.splitOnP pyIsSpace).filter (fun w => w ≠ [])

/-- The characters `[0-9;]` allowed inside an ANSI CSI escape sequence. -/
def isCSIParam (c : Char) : Bool := c.isDigit || c = ';'

/-- One attempted match of the regex `\x1b\[[0-9;]*[A-Za-z]`
(`ANSI_RE` in `ws_rat_swarm_wander.py`) at the head of the string;
on success returns the suffix after the match. -/
def matchCSI : Str → Option Str
  | '\x1b' :: '[' :: rest =>
    match rest.dropWhile isCSIParam with
    | c :: tl => if c.isAlpha then some tl else none
    | [] => none
  | _ => none

/-- Body of `ANSI_RE.sub("", s)`: scan left to right, removing each match.
The fuel counts scanning steps; every step consumes at least one character,
so passing the length of the string is always sufficient. -/
def stripAnsiGo : Nat → Str → Str
  | 0, l => l
  | _ + 1, [] => []
  | fuel + 1, c :: rest =>
    match matchCSI (c :: rest) with
    | some tl => stripAnsiGo fuel tl
    | none => c :: stripAnsiGo fuel rest

/-- `PromptState._strip_ansi`: `ANSI_RE.sub("", s)`. -/
def strip_ansi (l : Str) : Str := stripAnsiGo l.length l

/-- `PromptState`: a single boolean `at_prompt`. -/
structure PromptState where
  at_prompt : Bool
deriving DecidableEq

/-- `PromptState._looks_like_prompt`: normalize the frame and detect the
prompt.  Empty frames are rejected up front; otherwise ANSI CSI sequences
are stripped, carriage returns removed, and the frame counts as a prompt
when the whole text strips to `">"` or the last line (after splitting on
`"\n"`) strips to `">"`. -/
def looks_like_prompt (frame : Str) : Bool :=
  if frame = [] then false
  else
    let s := removeCR (strip_ansi frame)
    if pyStrip s == ['>'] then true
    else
      match (s.splitOn '\n').getLast? with
      | some last => pyStrip last == ['>']
      | none => false

/-- `PromptState.observe_incoming`. -/
def observe_incoming (ps : PromptState) (text : Str) : PromptState :=
  if looks_like_prompt text then { at_prompt := true } else ps

/-- `PromptState.sent_command`. -/
def sent_command (_ps : PromptState) : PromptState := { at_prompt := false }

/-- Claim C1's specification side, written from the spec's words: the
frame, after stripping ANSI CSI escape sequences and carriage returns,
either trims as a whole to exactly `">"`, or its last line after splitting
on `"\n"` trims to exactly `">"`. -/
def promptSpec (frame : Str) : Bool :=
  let s := removeCR (strip_ansi frame)
  (pyStrip s == ['>']) ||
    (match (s.splitOn '\n').getLast? with
     | some last => pyStrip last == ['>']
     | none => false)

/-- `recv_until_prompt`, modelled over the (deterministic) list of text
frames the server will deliver.  Returns the final prompt state, the frames
left unread on the connection and the number of receive calls performed;
`none` models the timeout (the frame supply running out before a prompt). -/
def recv_until_prompt : PromptState → List Str → Option (PromptState × List Str × Nat)
  | ps, frames =>
    if ps.at_prompt then some (ps, frames, 0)
    else
      match frames with
      | [] => none
      | f :: rest =>
        match recv_until_prompt (observe_incoming ps f) rest with
        | some (p, rem, n) => some (p, rem, n + 1)
        | none => none

/-- `send_line`: the text put on the wire (`line + "\n"`) and the prompt
state after `ps.sent_command()`. -/
def send_line (ps : PromptState) (line : Str) : Str × PromptState :=
  (line ++ ['\n'], sent_command ps)

/-- The relevant fields of `SwarmConfig` (weights and float timings as
rationals). -/
structure SwarmConfig where
  url : Str
  clients : Nat
  minutes : Rat
  ramp_per_sec : Rat
  verbose : Bool
  move_weight : Rat
  kill_weight : Rat
  look_weight : Rat
  moves : List Str
  avoid_immediate_backtrack : Bool
  get_lantern : Bool
  get_every : Nat
  think_min_ms : Nat
  think_max_ms : Nat
  progress_every_s : Rat
  connect_timeout_s : Rat
  io_timeout_s : Rat
deriving DecidableEq

/-- `BotStats`. -/
structure BotStats where
  kills : Nat := 0
  moves : Nat := 0
  gets : Nat := 0
deriving DecidableEq

/-- `choose_action`: the draw `r = random.random() * total` is passed in
explicitly; the bands are subtracted in the order move, kill, look. -/
def choose_action (cfg : SwarmConfig) (r : Rat) : String :=
  if r < cfg.move_weight then "move"
  else if r - cfg.move_weight < cfg.kill_weight then "kill"
  else "look"

/-- The `OPPOSITE` dictionary (`dict.get`: `none` for unknown keys). -/
def OPPOSITE (s : Str) : Option Str :=
  if s = "north".toList then some "south".toList
  else if s = "south".toList then some "north".toList
  else if s = "east".toList then some "west".toList
  else if s = "west".toList then some "east".toList
  else if s = "up".toList then some "down".toList
  else if s = "down".toList then some "up".toList
  else none

/-- Python truthiness of `last_move : Optional[str]`
(`None` and `""` are falsy). -/
def pyTruthyOpt : Option Str → Bool
  | none => false
  | some s => s ≠ []

/-- The candidate list `choose_move` draws from uniformly: the full
configured move set when backtrack avoidance is off or there is no last
move, otherwise the moves differing from `OPPOSITE.get(last_move)`, falling
back to the full set when that filter leaves nothing. -/
def choose_move_candidates (cfg : SwarmConfig) (last_move : Option Str) : List Str :=
  if !cfg.avoid_immediate_backtrack || !pyTruthyOpt last_move then cfg.moves
  else if (cfg.moves.filter (fun m => some m ≠ last_move.bind OPPOSITE)).isEmpty then cfg.moves
  else cfg.moves.filter (fun m => some m ≠ last_move.bind OPPOSITE)

/-- `choose_move`: `random.choice` modelled by an explicit index into the
candidate list (reduced modulo its length). -/
def choose_move (cfg : SwarmConfig) (last_move : Option Str) (idx : Nat) : Str :=
  let c := choose_move_candidates cfg last_move
  c.getD (idx % c.length) []

/-- Claim C5's specification side, written from the spec's words: if
backtrack avoidance is disabled or there is no last move, the full
configured movement set; otherwise the set with the direction exactly
opposite the last move removed (pairs north-south, east-west, up-down),
falling back to the full set when the exclusion leaves nothing. -/
def specMoveCandidates (cfg : SwarmConfig) (last_move : Option Str) : List Str :=
  match last_move with
  | none => cfg.moves
  | some lm =>
    if cfg.avoid_immediate_backtrack = false then cfg.moves
    else
      match OPPOSITE lm with
      | none => cfg.moves
      | some b =>
        if cfg.moves.filter (fun m => m ≠ b) = [] then cfg.moves
        else cfg.moves.filter (fun m => m ≠ b)

/-- The kill branch of `bot_task`'s action loop: increment the kill count,
then issue one `"get lantern"` (and bump `gets`) exactly when looting is on
and the new kill count is a multiple of `get_every`.  Returns the new stats
and the number of `"get"` commands issued. -/
def kill_step (cfg : SwarmConfig) (st : BotStats) : BotStats × Nat :=
  let st1 : BotStats := { st with kills := st.kills + 1 }
  if cfg.get_lantern && decide (0 < cfg.get_every) && (st1.kills % cfg.get_every == 0) then
    ({ st1 with gets := st1.gets + 1 }, 1)
  else (st1, 0)

/-- The alphabet `string.ascii_lowercase + string.digits` used by
`_rand_suffix`. -/
def SUFFIX_ALPHABET : Str := "abcdefghijklmnopqrstuvwxyz0123456789".toList

/-- `_rand_suffix`: each `random.choice` over the alphabet is modelled by
an explicit natural number reduced modulo the alphabet size. -/
def rand_suffix (picks : List Nat) : Str :=
  picks.map (fun k => SUFFIX_ALPHABET.getD (k % SUFFIX_ALPHABET.length) 'a')

/-- One decimal digit. -/
def digitChar : Nat → Char
  | 0 => '0' | 1 => '1' | 2 => '2' | 3 => '3' | 4 => '4'
  | 5 => '5' | 6 => '6' | 7 => '7' | 8 => '8' | 9 => '9'
  | _ => '*'

/-- Decimal digits of a natural number, most significant first (fuel-based;
`n + 1` steps always suffice since the argument shrinks every step). -/
def natDigitsGo : Nat → Nat → Str
  | 0, _ => []
  | fuel + 1, n =>
    if n < 10 then [digitChar n]
    else natDigitsGo fuel (n / 10) ++ [digitChar (n % 10)]

def natDigits (n : Nat) : Str := natDigitsGo (n + 1) n

/-- Python `f"{n:04d}"`: the decimal digits, left-padded with `'0'` to at
least four characters. -/
def py04d (n : Nat) : Str :=
  let ds := natDigits n
  List.replicate (4 - ds.length) '0' ++ ds

/-- The login name `f"Bot{bot_id:04d}_{_rand_suffix(4)}"` built in
`bot_task` (the four random draws are passed in). -/
def bot_name (bot_id : Nat) (picks : List Nat) : Str :=
  "Bot".toList ++ py04d bot_id ++ '_' :: rand_suffix picks

/-- The password `f"Pw{bot_id:04d}_{_rand_suffix(6)}"` built in `bot_task`
(the six random draws are passed in). -/
def bot_password (bot_id : Nat) (picks : List Nat) : Str :=
  "Pw".toList ++ py04d bot_id ++ '_' :: rand_suffix picks

/-- Claim C7's specification side for the login name: literally
`Bot<4-digit-id>_<4 random lowercase alphanumerics>`. -/
def specNameForm (l : Str) : Prop :=
  ∃ d s, l = "Bot".toList ++ d ++ '_' :: s ∧
    d.length = 4 ∧ d.all Char.isDigit ∧
    s.length = 4 ∧ s.all (fun c => c ∈ SUFFIX_ALPHABET)

/-- Claim C7's specification side for the password: literally
`Pw<4-digit-id>_<6 random lowercase alphanumerics>`. -/
def specPasswordForm (l : Str) : Prop :=
  ∃ d s, l = "Pw".toList ++ d ++ '_' :: s ∧
    d.length = 4 ∧ d.all Char.isDigit ∧
    s.length = 6 ∧ s.all (fun c => c ∈ SUFFIX_ALPHABET)

/-- `clean_tilde`: drop every `'~'` and strip. -/
def clean_tilde (l : Str) : Str := pyStrip (l.filter (fun c => c ≠ '~'))

/-- Whether the character class `[a-z0-9]` of `slug`'s regex accepts `c`. -/
def isSlugChar (c : Char) : Bool := ('a' ≤ c && c ≤ 'z') || c.isDigit

/-- `re.sub(r"[^a-z0-9]+", "_", s)`: replace each maximal run of rejected
characters by one underscore (`prevBad` records whether the previous
character was part of such a run). -/
def slugRepGo (prevBad : Bool) : Str → Str
  | [] => []
  | c :: rest =>
    if isSlugChar c then c :: slugRepGo false rest
    else if prevBad then slugRepGo true rest
    else '_' :: slugRepGo true rest

/-- Python `s.strip("_")`. -/
def stripUnderscore (l : Str) : Str :=
  ((l.dropWhile (fun c => c = '_')).reverse.dropWhile (fun c => c = '_')).reverse

/-- `slug`. -/
def slug (text : Str) : Str :=
  let s := stripUnderscore (slugRepGo false (pyLower text))
  if s = [] then "zone".toList else s

/-- `quote`: escape backslashes and double quotes and wrap in quotes. -/
def pyQuote (s : Str) : Str :=
  '"' :: (s.flatMap (fun c =>
    if c = '\\' then ['\\', '\\']
    else if c = '"' then ['\\', '"']
    else [c])) ++ ['"']

/-- The values `dump_yaml` renders: strings, ints, bools, lists and
string-keyed dicts. -/
inductive Val where
  | str (s : Str)
  | nat (n : Nat)
  | bool (b : Bool)
  | list (l : List Val)
  | dict (d : List (Str × Val))

/-- `"  " * indent`. -/
def yamlPad (indent : Nat) : Str := List.replicate (2 * indent) ' '

/-- `dump_yaml` (fuel-based so that it evaluates by kernel reduction; the
converter's output values have depth at most five, so any fuel above that
gives the Python behaviour). -/
def dump_yaml : Nat → Val → Nat → List Str
  | 0, _, _ => []
  | fuel + 1, v, indent =>
    let pad := yamlPad indent
    match v with
    | .dict d =>
      d.flatMap (fun kv =>
        match kv.2 with
        | .dict _ | .list _ =>
          (pad ++ kv.1 ++ [':']) :: dump_yaml fuel kv.2 (indent + 1)
        | .str s => [pad ++ kv.1 ++ ':' :: ' ' :: pyQuote s]
        | .bool b => [pad ++ kv.1 ++ ':' :: ' ' :: (if b then "true".toList else "false".toList)]
        | .nat n => [pad ++ kv.1 ++ ':' :: ' ' :: natDigits n])
    | .list l =>
      l.flatMap (fun item =>
        match item with
        | .dict _ | .list _ => (pad ++ ['-']) :: dump_yaml fuel item (indent + 1)
        | .str s => [pad ++ '-' :: ' ' :: pyQuote s]
        | .bool b => [pad ++ '-' :: ' ' :: (if b then "true".toList else "false".toList)]
        | .nat n => [pad ++ '-' :: ' ' :: natDigits n])
    | .str s => [pad ++ pyQuote s]
    | .bool b => [pad ++ (if b then "true".toList else "false".toList)]
    | .nat n => [pad ++ natDigits n]

/-- `Room` from `convert_rom_area.py`. -/
structure Room where
  vnum : Str
  title : Str
  description : Str
  exits : List (Str × Str)
deriving DecidableEq

/-- `Mob` from `convert_rom_area.py`. -/
structure Mob where
  vnum : Str
  name : Str
  room_vnum : Option Str := none
deriving DecidableEq

/-- `Item` from `convert_rom_area.py`. -/
structure Item where
  vnum : Str
  name : Str
  room_vnum : Option Str := none
deriving DecidableEq

/-- Python dicts as association lists: `d[k] = v` replaces the value in
place when the key exists and appends otherwise (insertion order kept). -/
def dictInsert {α : Type} (k : Str) (v : α) : List (Str × α) → List (Str × α)
  | [] => [(k, v)]
  | e :: rest => if e.1 = k then (k, v) :: rest else e :: dictInsert k v rest

/-- `d.update(u)`. -/
def dictUpdate {α : Type} (d u : List (Str × α)) : List (Str × α) :=
  u.foldl (fun acc e => dictInsert e.1 e.2 acc) d

/-- `d.get(k)` / `k in d`. -/
def dictLookup {α : Type} (k : Str) (d : List (Str × α)) : Option α :=
  (d.find? (fun e => e.1 == k)).map (fun e => e.2)

/-- `line.startswith("#")` on a (stripped) line. -/
def startsWithHash : Str → Bool
  | '#' :: _ => true
  | _ => false

/-- `"~" not in line`. -/
def noTilde (l : Str) : Bool := !(l.contains '~')

/-- `DIRECTION_MAP.get(d, f"dir_{d}")`. -/
def directionName (d : Char) : Str :=
  if d = '0' then "north".toList
  else if d = '1' then "east".toList
  else if d = '2' then "south".toList
  else if d = '3' then "west".toList
  else if d = '4' then "up".toList
  else if d = '5' then "down".toList
  else "dir_".toList ++ [d]

/-- The inner exit loop of `parse_rooms`: `D<digit>` blocks add one exit
(two tilde-terminated texts are skipped, then the third field of the next
line is the destination); `S` ends the block.  Returns the exits dict and
the unread suffix of the file. -/
def parseExits : Nat → List Str → List (Str × Str) →
    Except Str (List (Str × Str) × List Str)
  | 0, _, _ => .error "fuel".toList
  | _ + 1, [], acc => .ok (acc, [])
  | fuel + 1, l :: rest, acc =>
    let cur := pyStrip l
    match cur with
    | 'D' :: d :: [] =>
      if d.isDigit then
        let r2 := ((rest.dropWhile noTilde).drop 1).dropWhile noTilde |>.drop 1
        match r2 with
        | [] => .ok (acc, [])
        | pl :: r3 =>
          let parts := pySplitWS pl
          let acc2 := if parts.length ≥ 3 then
              dictInsert (directionName d) (parts.getD 2 []) acc
            else acc
          parseExits fuel r3 acc2
      else parseExits fuel rest acc
    | _ =>
      if cur = ['S'] then .ok (acc, rest)
      else parseExits fuel rest acc

/-- `parse_rooms`, on the suffix of the file after the `#ROOMS` header.
Returns the rooms dict and the unread suffix; `.error` models an
`IndexError` on a truncated file (or fuel exhaustion, which cannot happen
at the fuel used by `parse_area`). -/
def parse_rooms : Nat → List Str → List (Str × Room) →
    Except Str (List (Str × Room) × List Str)
  | 0, _, _ => .error "fuel".toList
  | _ + 1, [], acc => .ok (acc, [])
  | fuel + 1, l :: rest, acc =>
    let line := pyStrip l
    if line = "#0".toList then .ok (acc, rest)
    else if !startsWithHash line || line = "#ROOMS".toList then
      parse_rooms fuel rest acc
    else
      let vnum := line.drop 1
      match rest with
      | [] => .error "IndexError".toList
      | titleLine :: r2 =>
        let title := clean_tilde titleLine
        let descHead := (r2.takeWhile noTilde).map pyRstrip
        let r3 := r2.dropWhile noTilde
        let descTail : List Str := match r3.head? with
          | some dl => [pyRstrip (dl.filter (fun c => c ≠ '~'))]
          | none => []
        let desc := descHead ++ descTail
        let r4 := (r3.drop 1).drop 1
        match parseExits fuel r4 [] with
        | .error e => .error e
        | .ok (exits, r5) =>
          let joined := pyStrip (List.intercalate ['\n'] (desc.filter (fun x => x ≠ [])))
          let descFinal := if joined = [] then "(no description)".toList else joined
          parse_rooms fuel r5 (dictInsert vnum ⟨vnum, title, descFinal, exits⟩ acc)

/-- `parse_entities` (used for `#MOBILES` and `#OBJECTS`): maps vnums to
cleaned names, with `f"{section.lower()} {vnum}"` as the fallback name. -/
def parse_entities : Nat → Str → List Str → List (Str × Str) →
    Except Str (List (Str × Str) × List Str)
  | 0, _, _, _ => .error "fuel".toList
  | _ + 1, _, [], acc => .ok (acc, [])
  | fuel + 1, sect, l :: rest, acc =>
    let line := pyStrip l
    if line = "#0".toList then .ok (acc, rest)
    else if !startsWithHash line || line = sect then
      parse_entities fuel sect rest acc
    else
      let vnum := line.drop 1
      match rest with
      | [] => .error "IndexError".toList
      | nameLine :: r2 =>
        let cleaned := clean_tilde nameLine
        let name := if cleaned = [] then pyLower sect ++ ' ' :: vnum else cleaned
        let rem := (nameLine :: r2).dropWhile (fun x => !startsWithHash (pyStrip x))
        parse_entities fuel sect rem (dictInsert vnum name acc)

/-- `parse_resets`: `M` resets place a mob in a room, `O` resets place an
item, `G` resets give an item to the last reset's room; stops at `S`. -/
def parse_resets : List Str → List (Str × Mob) → List (Str × Item) → Option Str →
    List (Str × Mob) × List (Str × Item) × List Str
  | [], mobs, items, _ => (mobs, items, [])
  | l :: rest, mobs, items, room =>
    let line := pyStrip l
    if line = ['S'] then (mobs, items, rest)
    else
      let parts := pySplitWS line
      let code := parts.getD 0 []
      if code = ['M'] && parts.length ≥ 5 && (dictLookup (parts.getD 2 []) mobs).isSome then
        let v := parts.getD 2 []
        let r := parts.getD 4 []
        let mobs2 := mobs.map (fun e => if e.1 = v then (e.1, { e.2 with room_vnum := some r }) else e)
        parse_resets rest mobs2 items (some r)
      else if code = ['O'] && parts.length ≥ 4 && (dictLookup (parts.getD 2 []) items).isSome then
        let v := parts.getD 2 []
        let r := parts.getD 3 []
        let items2 := items.map (fun e => if e.1 = v then (e.1, { e.2 with room_vnum := some r }) else e)
        parse_resets rest mobs items2 (some r)
      else if code = ['G'] && parts.length ≥ 3 && pyTruthyOpt room &&
          (dictLookup (parts.getD 2 []) items).isSome then
        let v := parts.getD 2 []
        let items2 := items.map (fun e => if e.1 = v then (e.1, { e.2 with room_vnum := room }) else e)
        parse_resets rest mobs items2 room
      else parse_resets rest mobs items room

/-- The top-level section scan of `parse_area`. -/
def parseSections : Nat → List Str → List (Str × Room) → List (Str × Mob) →
    List (Str × Item) →
    Except Str (List (Str × Room) × List (Str × Mob) × List (Str × Item))
  | 0, _, _, _, _ => .error "fuel".toList
  | _ + 1, [], rooms, mobs, items => .ok (rooms, mobs, items)
  | fuel + 1, l :: rest, rooms, mobs, items =>
    let s := pyStrip l
    if s = "#ROOMS".toList then
      match parse_rooms fuel rest [] with
      | .error e => .error e
      | .ok (r, rest2) => parseSections fuel rest2 (dictUpdate rooms r) mobs items
    else if s = "#MOBILES".toList then
      match parse_entities fuel "#MOBILES".toList rest [] with
      | .error e => .error e
      | .ok (m, rest2) =>
        parseSections fuel rest2 rooms
          (dictUpdate mobs (m.map (fun e => (e.1, ⟨e.1, e.2, none⟩)))) items
    else if s = "#OBJECTS".toList then
      match parse_entities fuel "#OBJECTS".toList rest [] with
      | .error e => .error e
      | .ok (o, rest2) =>
        parseSections fuel rest2 rooms mobs
          (dictUpdate items (o.map (fun e => (e.1, ⟨e.1, e.2, none⟩))))
    else if s = "#RESETS".toList then
      let (mobs2, items2, rest2) := parse_resets rest mobs items none
      parseSections fuel rest2 rooms mobs2 items2
    else parseSections fuel rest rooms mobs items

/-- A room of the emitted configuration. -/
structure OutRoom where
  title : Str
  description : Str
  exits : List (Str × Str)
deriving DecidableEq

/-- A mob of the emitted configuration (`tier` and `level` are the
constants `"standard"` and `1`). -/
structure OutMob where
  name : Str
  room : Str
deriving DecidableEq

/-- An item of the emitted configuration; `room` is the optional room key. -/
structure OutItem where
  displayName : Str
  description : Str
  keyword : Str
  room : Option Str
deriving DecidableEq

/-- The emitted area configuration. -/
structure AreaOut where
  zone : Str
  lifespan : Nat
  startRoom : Str
  rooms : List (Str × OutRoom)
  mobs : List (Str × OutMob)
  items : List (Str × OutItem)
deriving DecidableEq

/-- `rid`: `f"r{v}"`. -/
def rid (v : Str) : Str := 'r' :: v

/-- The output-building tail of `parse_area` (its lines 185-198): room keys
are prefixed with `r` and exits keep only targets that are parsed rooms;
mobs are kept only when their reset room is a parsed room; items always
appear but carry a `room` key only when their reset room is a parsed room. -/
def build_output (stem : Str) (rooms : List (Str × Room)) (mobs : List (Str × Mob))
    (items : List (Str × Item)) : AreaOut :=
  { zone := slug stem
    lifespan := 30
    startRoom := rid ((rooms.map (fun e => e.1)).headD [])
    rooms := rooms.map (fun e =>
      (rid e.1,
        { title := e.2.title
          description := e.2.description
          exits := e.2.exits.filterMap (fun x =>
            if (dictLookup x.2 rooms).isSome then some (x.1, rid x.2) else none) }))
    mobs := mobs.filterMap (fun e =>
      match e.2.room_vnum with
      | some rv =>
        if (dictLookup rv rooms).isSome then
          some ('m' :: e.1, { name := e.2.name, room := rid rv })
        else none
      | none => none)
    items := items.map (fun e =>
      ('i' :: e.1,
        { displayName := e.2.name
          description := "Imported from ROM area file.".toList
          keyword :=
            let kw := ((slug e.2.name).splitOn '_').headD []
            if kw = [] then "item".toList ++ e.1 else kw
          room :=
            match e.2.room_vnum with
            | some rv => if (dictLookup rv rooms).isSome then some (rid rv) else none
            | none => none })) }

/-- `parse_area` on one file, given its stem and its lines.  `.error`
covers the `ValueError` for roomless files and the index errors of
truncated ones. -/
def parse_area (stem : Str) (lines : List Str) : Except Str AreaOut :=
  match parseSections (2 * lines.length + 8) lines [] [] [] with
  | .error e => .error e
  | .ok (rooms, mobs, items) =>
    if rooms = [] then .error "ValueError: No rooms found".toList
    else .ok (build_output stem rooms mobs items)

/-- The `Val` tree of the emitted configuration, mirroring the dict built
by `parse_area`. -/
def areaVal (a : AreaOut) : Val :=
  .dict [("zone".toList, .str a.zone),
         ("lifespan".toList, .nat a.lifespan),
         ("startRoom".toList, .str a.startRoom),
         ("rooms".toList, .dict (a.rooms.map (fun e =>
           (e.1, Val.dict [("title".toList, .str e.2.title),
                           ("description".toList, .str e.2.description),
                           ("exits".toList, .dict (e.2.exits.map (fun x =>
                             (x.1, Val.str x.2))))])))),
         ("mobs".toList, .dict (a.mobs.map (fun e =>
           (e.1, Val.dict [("name".toList, .str e.2.name),
                           ("room".toList, .str e.2.room),
                           ("tier".toList, .str "standard".toList),
                           ("level".toList, .nat 1)])))),
         ("items".toList, .dict (a.items.map (fun e =>
           (e.1, Val.dict
             ([("displayName".toList, Val.str e.2.displayName),
               ("description".toList, Val.str e.2.description),
               ("keyword".toList, Val.str e.2.keyword)] ++
              (match e.2.room with
               | some r => [("room".toList, Val.str r)]
               | none => []))))))]

/-- The text written for one converted area:
`"\n".join(dump_yaml(parse_area(f))) + "\n"`. -/
def renderArea (a : AreaOut) : Str :=
  List.intercalate ['\n'] (dump_yaml 8 (areaVal a) 0) ++ ['\n']

/-- The loop body of the converter's `main`: write one `.yaml` file per
parsed input, stopping with the uncaught exception if a file fails to
parse. -/
def convertFiles : List (Str × List Str) → List (Str × Str) →
    List (Str × Str) × Option Str
  | [], written => (written, none)
  | (stem, lines) :: rest, written =>
    match parse_area stem lines with
    | .ok area => convertFiles rest (written ++ [(slug stem ++ ".yaml".toList, renderArea area)])
    | .error e => (written, some e)

/-- The converter's `main`, over the (sorted) list of `.are` files found in
the input directory, each given as stem and lines.  The second component is
the abnormal-termination outcome: `some` means the process exits with a
non-zero status (`SystemExit` when no input files exist, an uncaught
exception when a file fails to parse), `none` a successful exit. -/
def convert_main (inputs : List (Str × List Str)) : List (Str × Str) × Option Str :=
  if inputs = [] then ([], some "SystemExit: No .are files found".toList)
  else convertFiles inputs []

theorem looks_like_prompt_eq_promptSpec (frame : Str) :
    looks_like_prompt frame = promptSpec frame := by
  cases frame with
  | nil => decide
  | cons c cs =>
    simp only [looks_like_prompt, promptSpec]
    rw [if_neg (List.cons_ne_nil c cs)]
    cases hA : (pyStrip (removeCR (strip_ansi (c :: cs))) == ['>']) <;> simp [hA]

theorem observe_at_prompt (ps : PromptState) (t : Str) :
    (observe_incoming ps t).at_prompt = (ps.at_prompt || looks_like_prompt t) := by
  cases hL : looks_like_prompt t <;> simp [observe_incoming, hL]

/-- C1: for every incoming text frame, prompt detection
(`observe_incoming` via `_looks_like_prompt`) transitions to ready if and
only if the frame, after stripping ANSI CSI escape sequences and removing
carriage returns, either trims as a whole to exactly `">"` or its last
line (after splitting on `"\n"`) trims to exactly `">"`; in particular it
is true for `"\x1b[32m> \x1b[0m"` and false for `"> go north"` and for the
empty frame. -/
theorem prompt_detection_iff :
    (∀ frame, (observe_incoming ⟨false⟩ frame).at_prompt = true ↔ promptSpec frame = true) ∧
    (observe_incoming ⟨false⟩ ("\x1b[32m> \x1b[0m".toList)).at_prompt = true ∧
    (observe_incoming ⟨false⟩ ("> go north".toList)).at_prompt = false ∧
    (observe_incoming ⟨false⟩ []).at_prompt = false := by
  refine ⟨fun frame => ?_, by decide, by decide, by decide⟩
  rw [observe_at_prompt, looks_like_prompt_eq_promptSpec]
  simp

theorem prompt_detection_iff_witness :
    (observe_incoming ⟨false⟩ ("\x1b[32m> \x1b[0m".toList)).at_prompt = true :=
  (prompt_detection_iff.1 _).mpr (by decide)

/-- C9: `observe_incoming` is monotone on the ready flag: it either leaves
`at_prompt` unchanged or sets it to true, never clears it (a ready state
stays ready on any further frame); only `sent_command` clears the flag. -/
theorem observe_incoming_monotone (ps : PromptState) (t : Str) :
    (observe_incoming ps t).at_prompt = (ps.at_prompt || looks_like_prompt t) ∧
    (observe_incoming { at_prompt := true } t).at_prompt = true ∧
    (sent_command ps).at_prompt = false := by
  refine ⟨observe_at_prompt ps t, ?_, rfl⟩
  rw [observe_at_prompt]
  simp

/-- C3: `send_line` transmits the text followed by a line terminator and
unconditionally sets the prompt state to busy, for every prior state. -/
theorem send_line_always_busy (ps : PromptState) (line : Str) :
    (send_line ps line).2.at_prompt = false ∧ (send_line ps line).1 = line ++ ['\n'] :=
  ⟨rfl, rfl⟩

theorem recv_until_prompt_eq (ps : PromptState) (frames : List Str) :
    recv_until_prompt ps frames =
      if ps.at_prompt then some (ps, frames, 0)
      else
        match frames with
        | [] => none
        | f :: rest =>
          match recv_until_prompt (observe_incoming ps f) rest with
          | some (p, rem, n) => some (p, rem, n + 1)
          | none => none := by
  rw [recv_until_prompt.eq_def]

/-- C2: when the prompt state is already ready, `recv_until_prompt` returns
immediately with zero receive calls and an unchanged state and connection;
otherwise it consumes frames until one of them yields the prompt (every
successful return is in the ready state), or times out. -/
theorem recv_until_prompt_no_io_when_ready (ps : PromptState) (frames : List Str) :
    (ps.at_prompt = true → recv_until_prompt ps frames = some (ps, frames, 0)) ∧
    (∀ res, recv_until_prompt ps frames = some res → res.1.at_prompt = true) := by
  constructor
  · intro h
    rw [recv_until_prompt_eq, if_pos h]
  · induction frames generalizing ps with
    | nil =>
      intro res h
      rw [recv_until_prompt_eq] at h
      by_cases hp : ps.at_prompt
      · rw [if_pos hp] at h
        cases h
        exact hp
      · rw [if_neg hp] at h
        simp at h
    | cons f rest ih =>
      intro res h
      rw [recv_until_prompt_eq] at h
      by_cases hp : ps.at_prompt
      · rw [if_pos hp] at h
        cases h
        exact hp
      · rw [if_neg hp] at h
        simp only at h
        cases hr : recv_until_prompt (observe_incoming ps f) rest with
        | none => rw [hr] at h; simp at h
        | some t =>
          obtain ⟨p, rem, n⟩ := t
          rw [hr] at h
          cases h
          exact ih (observe_incoming ps f) (p, rem, n) hr

theorem recv_until_prompt_no_io_when_ready_witness :
    recv_until_prompt ⟨true⟩ ["hello".toList] = some (⟨true⟩, ["hello".toList], 0) :=
  (recv_until_prompt_no_io_when_ready ⟨true⟩ ["hello".toList]).1 rfl

/-- C4: with non-negative weights and a draw `r` in `[0, total)`,
`choose_action` returns the first band containing `r` in the order move,
kill, look; a zero-weight action is never returned; with weights
move = 0, kill = 1, look = 0 it always returns `"kill"`. -/
theorem choose_action_bands (cfg : SwarmConfig) (r : Rat)
    (h0m : 0 ≤ cfg.move_weight) (h0k : 0 ≤ cfg.kill_weight) (h0l : 0 ≤ cfg.look_weight)
    (hr0 : 0 ≤ r) (hrt : r < cfg.move_weight + cfg.kill_weight + cfg.look_weight) :
    (choose_action cfg r = "move" ↔ r < cfg.move_weight) ∧
    (choose_action cfg r = "kill" ↔
      cfg.move_weight ≤ r ∧ r < cfg.move_weight + cfg.kill_weight) ∧
    (choose_action cfg r = "look" ↔ cfg.move_weight + cfg.kill_weight ≤ r) ∧
    (choose_action cfg r = "move" → 0 < cfg.move_weight) ∧
    (choose_action cfg r = "kill" → 0 < cfg.kill_weight) ∧
    (choose_action cfg r = "look" → 0 < cfg.look_weight) ∧
    (cfg.move_weight = 0 → cfg.kill_weight = 1 → cfg.look_weight = 0 →
      choose_action cfg r = "kill") := by
  unfold choose_action
  by_cases h1 : r < cfg.move_weight
  · rw [if_pos h1]
    refine ⟨⟨fun _ => h1, fun _ => rfl⟩, ⟨?_, ?_⟩, ⟨?_, ?_⟩, fun _ => ?_, ?_, ?_, ?_⟩
    · intro h; exact absurd h (by decide)
    · intro ⟨ha, _⟩; exact absurd h1 (not_lt.mpr ha)
    · intro h; exact absurd h (by decide)
    · intro ha
      have : cfg.move_weight ≤ r := le_trans (by linarith) ha
      exact absurd h1 (not_lt.mpr this)
    · linarith
    · intro h; exact absurd h (by decide)
    · intro h; exact absurd h (by decide)
    · intro hm _ _
      rw [hm] at h1
      exact absurd h1 (not_lt.mpr hr0)
  · rw [if_neg h1]
    have hmr : cfg.move_weight ≤ r := not_lt.mp h1
    by_cases h2 : r - cfg.move_weight < cfg.kill_weight
    · rw [if_pos h2]
      refine ⟨⟨?_, fun hc => absurd hc h1⟩, ⟨fun _ => ⟨hmr, by linarith⟩,
        fun _ => rfl⟩, ⟨?_, ?_⟩, ?_, fun _ => by linarith, ?_, fun _ _ _ => rfl⟩
      · intro h; exact absurd h (by decide)
      · intro h; exact absurd h (by decide)
      · intro ha; linarith
      · intro h; exact absurd h (by decide)
      · intro h; exact absurd h (by decide)
    · rw [if_neg h2]
      have hkr : cfg.move_weight + cfg.kill_weight ≤ r := by
        have := not_lt.mp h2
        linarith
      refine ⟨⟨?_, fun hc => absurd hc h1⟩, ⟨?_, fun ⟨_, hc⟩ => absurd hc (not_lt.mpr hkr)⟩,
        ⟨fun _ => hkr, fun _ => rfl⟩, ?_, ?_, fun _ => by linarith, ?_⟩
      · intro h; exact absurd h (by decide)
      · intro h; exact absurd h (by decide)
      · intro h; exact absurd h (by decide)
      · intro h; exact absurd h (by decide)
      · intro hm hk _
        rw [hm, hk] at hkr
        rw [hm] at hmr
        have : r - 0 < 1 := by linarith
        exact absurd this (not_lt.mpr (by linarith))

/-- A configuration with weights move = 0, kill = 1, look = 0. -/
def cfgKillOnly : SwarmConfig :=
  { url := [], clients := 0, minutes := 1, ramp_per_sec := 0, verbose := false,
    move_weight := 0, kill_weight := 1, look_weight := 0,
    moves := [], avoid_immediate_backtrack := false,
    get_lantern := false, get_every := 6, think_min_ms := 0, think_max_ms := 0,
    progress_every_s := 1, connect_timeout_s := 1, io_timeout_s := 2 }

theorem choose_action_bands_witness : choose_action cfgKillOnly 0 = "kill" :=
  (choose_action_bands cfgKillOnly 0 (by norm_num [cfgKillOnly]) (by norm_num [cfgKillOnly])
    (by norm_num [cfgKillOnly]) (by norm_num) (by norm_num [cfgKillOnly])).2.2.2.2.2.2
    rfl rfl rfl

/-- A configuration with movement set {north, south} and backtrack
avoidance enabled. -/
def cfgNorthSouth : SwarmConfig :=
  { url := [], clients := 0, minutes := 1, ramp_per_sec := 0, verbose := false,
    move_weight := 1, kill_weight := 0, look_weight := 0,
    moves := ["north".toList, "south".toList], avoid_immediate_backtrack := true,
    get_lantern := false, get_every := 6, think_min_ms := 0, think_max_ms := 0,
    progress_every_s := 1, connect_timeout_s := 1, io_timeout_s := 2 }


theorem filter_back_eq (moves : List Str) (back : Option Str) :
    (if (moves.filter (fun m => some m ≠ back)).isEmpty then moves
     else moves.filter (fun m => some m ≠ back)) =
    (match back with
     | none => moves
     | some b =>
       if moves.filter (fun m => m ≠ b) = [] then moves
       else moves.filter (fun m => m ≠ b)) := by
  cases back with
  | none =>
    have hfil : moves.filter (fun m => decide (some m ≠ (none : Option Str))) = moves := by
      rw [List.filter_eq_self]
      intro a _
      simp
    rw [hfil]
    cases moves with
    | nil => rfl
    | cons x xs => rfl
  | some b =>
    dsimp only
    have hfil : moves.filter (fun m => decide (some m ≠ some b)) =
        moves.filter (fun m => decide (m ≠ b)) := by
      apply List.filter_congr
      intro a _
      simp
    rw [hfil]
    by_cases h : moves.filter (fun m => decide (m ≠ b)) = []
    · rw [h]
      rfl
    · have hie : ¬(((moves.filter (fun m => decide (m ≠ b))).isEmpty) = true) := by
        simpa using h
      rw [if_neg h, if_neg hie]

theorem spec_back_ne_nil (moves : List Str) (back : Option Str) (hne : moves ≠ []) :
    (match back with
     | none => moves
     | some b =>
       if moves.filter (fun m => m ≠ b) = [] then moves
       else moves.filter (fun m => m ≠ b)) ≠ [] := by
  cases back with
  | none => exact hne
  | some b =>
    dsimp only
    by_cases h : moves.filter (fun m => decide (m ≠ b)) = []
    · rw [if_pos h]; exact hne
    · rw [if_neg h]; exact h

theorem choose_move_candidates_eq_spec (cfg : SwarmConfig) (last_move : Option Str) :
    choose_move_candidates cfg last_move = specMoveCandidates cfg last_move := by
  unfold choose_move_candidates specMoveCandidates
  cases last_move with
  | none => simp [pyTruthyOpt]
  | some lm =>
    dsimp only
    by_cases hav : cfg.avoid_immediate_backtrack
    · by_cases hlm : lm = []
      · subst hlm
        simp [pyTruthyOpt, hav, OPPOSITE]
      · have hcond : ¬((!cfg.avoid_immediate_backtrack || !pyTruthyOpt (some lm)) = true) := by
          simp [hav, pyTruthyOpt, hlm]
        have hnotfalse : ¬(cfg.avoid_immediate_backtrack = false) := by simp [hav]
        rw [if_neg hcond, if_neg hnotfalse]
        have hb : (some lm).bind OPPOSITE = OPPOSITE lm := rfl
        rw [hb]
        exact filter_back_eq cfg.moves (OPPOSITE lm)
    · simp only [Bool.not_eq_true] at hav
      simp [hav, pyTruthyOpt]

theorem choose_move_candidates_ne_nil (cfg : SwarmConfig) (last_move : Option Str)
    (hne : cfg.moves ≠ []) : choose_move_candidates cfg last_move ≠ [] := by
  rw [choose_move_candidates_eq_spec]
  unfold specMoveCandidates
  cases last_move with
  | none => exact hne
  | some lm =>
    dsimp only
    by_cases hav : cfg.avoid_immediate_backtrack = false
    · rw [if_pos hav]; exact hne
    · rw [if_neg hav]
      exact spec_back_ne_nil cfg.moves (OPPOSITE lm) hne

/-- C5: `choose_move` draws uniformly from the full movement set when
backtrack avoidance is off or there is no last move, and otherwise from the
set with the exact opposite of the last move removed, falling back to the
full set when that leaves nothing (the candidate pool equals the
spec-described pool and is never empty for a non-empty movement set); with
moves {north, south}, avoidance on and last move north, it always returns
north. -/
theorem choose_move_matches_spec (cfg : SwarmConfig) (last_move : Option Str)
    (hne : cfg.moves ≠ []) :
    choose_move_candidates cfg last_move = specMoveCandidates cfg last_move ∧
    choose_move_candidates cfg last_move ≠ [] ∧
    (∀ idx, choose_move cfgNorthSouth (some "north".toList) idx = "north".toList) := by
  refine ⟨choose_move_candidates_eq_spec cfg last_move,
    choose_move_candidates_ne_nil cfg last_move hne, fun idx => ?_⟩
  show (choose_move_candidates cfgNorthSouth (some "north".toList)).getD
    (idx % (choose_move_candidates cfgNorthSouth (some "north".toList)).length) [] =
    "north".toList
  have hc : choose_move_candidates cfgNorthSouth (some "north".toList) = ["north".toList] := by
    decide
  rw [hc]
  simp [Nat.mod_one]

theorem choose_move_matches_spec_witness :
    choose_move cfgNorthSouth (some "north".toList) 7 = "north".toList :=
  (choose_move_matches_spec cfgNorthSouth (some "north".toList) (by decide)).2.2 7

/-- C6: after each kill with looting enabled and interval `k > 0`, exactly
one extra `"get"` command is issued (and the `gets` counter bumped by one)
if and only if the post-increment kill count is an exact positive multiple
of `k`; otherwise, and whenever looting is disabled, no `"get"` is
issued. -/
theorem loot_trigger (cfg : SwarmConfig) (st : BotStats) (hk : 0 < cfg.get_every) :
    (kill_step cfg st).1.kills = st.kills + 1 ∧
    (cfg.get_lantern = true →
      (((kill_step cfg st).2 = 1 ∧ (kill_step cfg st).1.gets = st.gets + 1) ↔
        ∃ m, 0 < m ∧ st.kills + 1 = m * cfg.get_every)) ∧
    (cfg.get_lantern = true → ¬ (cfg.get_every ∣ st.kills + 1) →
      (kill_step cfg st).2 = 0 ∧ (kill_step cfg st).1.gets = st.gets) ∧
    (cfg.get_lantern = false →
      (kill_step cfg st).2 = 0 ∧ (kill_step cfg st).1.gets = st.gets) := by
  have hdvd : ((st.kills + 1) % cfg.get_every == 0) = true ↔
      cfg.get_every ∣ st.kills + 1 := by
    rw [beq_iff_eq]
    exact Nat.dvd_iff_mod_eq_zero.symm
  have hmult : cfg.get_every ∣ st.kills + 1 ↔
      ∃ m, 0 < m ∧ st.kills + 1 = m * cfg.get_every := by
    constructor
    · intro ⟨m, hm⟩
      refine ⟨m, ?_, by rw [hm, Nat.mul_comm]⟩
      rcases Nat.eq_zero_or_pos m with h0 | h0
      · subst h0; simp at hm
      · exact h0
    · intro ⟨m, _, hm⟩
      exact ⟨m, by rw [hm, Nat.mul_comm]⟩
  by_cases hgl : cfg.get_lantern = true
  · by_cases hm : cfg.get_every ∣ st.kills + 1
    · have hstep : kill_step cfg st =
          ({ kills := st.kills + 1, moves := st.moves, gets := st.gets + 1 }, 1) := by
        unfold kill_step
        rw [if_pos (by rw [hgl, decide_eq_true hk, hdvd.mpr hm]; rfl)]
      rw [hstep]
      refine ⟨rfl, fun _ => ⟨fun _ => hmult.mp hm, fun _ => ⟨rfl, rfl⟩⟩,
        fun _ hnd => absurd hm hnd, fun h => ?_⟩
      rw [h] at hgl
      exact absurd hgl (by decide)
    · have hcond : ¬((cfg.get_lantern && decide (0 < cfg.get_every) &&
          ((st.kills + 1) % cfg.get_every == 0)) = true) := by
        rw [hgl, decide_eq_true hk]
        simp only [Bool.true_and]
        intro hc
        exact hm (hdvd.mp hc)
      have hstep : kill_step cfg st =
          ({ kills := st.kills + 1, moves := st.moves, gets := st.gets }, 0) := by
        unfold kill_step
        rw [if_neg hcond]
      rw [hstep]
      refine ⟨rfl, fun _ => ⟨fun ⟨h1, _⟩ => absurd h1 (by simp),
        fun hex => absurd (hmult.mpr hex) hm⟩, fun _ _ => ⟨rfl, rfl⟩, fun h => ?_⟩
      rw [h] at hgl
      exact absurd hgl (by decide)
  · have hglf : cfg.get_lantern = false := by
      revert hgl
      cases cfg.get_lantern <;> simp
    have hcond : ¬((cfg.get_lantern && decide (0 < cfg.get_every) &&
        ((st.kills + 1) % cfg.get_every == 0)) = true) := by
      rw [hglf]
      simp
    have hstep : kill_step cfg st =
        ({ kills := st.kills + 1, moves := st.moves, gets := st.gets }, 0) := by
      unfold kill_step
      rw [if_neg hcond]
    rw [hstep]
    exact ⟨rfl, fun h => absurd h hgl, fun h _ => absurd h hgl, fun _ => ⟨rfl, rfl⟩⟩

/-- A configuration with looting enabled every 6 kills. -/
def cfgLoot : SwarmConfig :=
  { url := [], clients := 0, minutes := 1, ramp_per_sec := 0, verbose := false,
    move_weight := 1, kill_weight := 1, look_weight := 1,
    moves := [], avoid_immediate_backtrack := false,
    get_lantern := true, get_every := 6, think_min_ms := 0, think_max_ms := 0,
    progress_every_s := 1, connect_timeout_s := 1, io_timeout_s := 2 }

theorem loot_trigger_witness :
    (kill_step cfgLoot ⟨5, 0, 0⟩).2 = 1 ∧ (kill_step cfgLoot ⟨5, 0, 0⟩).1.gets = 0 + 1 :=
  ((loot_trigger cfgLoot ⟨5, 0, 0⟩ (by decide)).2.1 rfl).mpr ⟨1, by decide, by decide⟩

theorem digitChar_isDigit (d : Nat) (h : d < 10) : (digitChar d).isDigit = true := by
  interval_cases d <;> decide

theorem natDigitsGo_ne_nil (fuel n : Nat) (h : n < fuel) : natDigitsGo fuel n ≠ [] := by
  cases fuel with
  | zero => omega
  | succ f =>
    unfold natDigitsGo
    by_cases h10 : n < 10
    · rw [if_pos h10]
      simp
    · rw [if_neg h10]
      simp

theorem natDigitsGo_all_digit (fuel : Nat) : ∀ n, n < fuel →
    (natDigitsGo fuel n).all Char.isDigit = true := by
  induction fuel with
  | zero => intro n h; omega
  | succ f ih =>
    intro n h
    unfold natDigitsGo
    by_cases h10 : n < 10
    · rw [if_pos h10]
      simp [digitChar_isDigit n h10]
    · rw [if_neg h10]
      have hdiv : n / 10 < n := Nat.div_lt_self (by omega) (by omega)
      rw [List.all_append]
      rw [ih (n / 10) (by omega)]
      simp [digitChar_isDigit (n % 10) (Nat.mod_lt n (by omega))]

theorem natDigitsGo_length_le (k : Nat) : ∀ fuel n, 0 < k → n < 10 ^ k → n < fuel →
    (natDigitsGo fuel n).length ≤ k := by
  induction k with
  | zero => intro fuel n hk; omega
  | succ k ih =>
    intro fuel n _ hnk hf
    cases fuel with
    | zero => omega
    | succ f =>
      unfold natDigitsGo
      by_cases h10 : n < 10
      · rw [if_pos h10]
        simp
      · rw [if_neg h10]
        have hdiv : n / 10 < n := Nat.div_lt_self (by omega) (by omega)
        have hk0 : 0 < k := by
          by_contra hc
          have : k = 0 := by omega
          subst this
          simp [pow_succ, pow_zero] at hnk
          omega
        have hndiv : n / 10 < 10 ^ k := by
          rw [Nat.div_lt_iff_lt_mul (by omega)]
          calc n < 10 ^ (k + 1) := hnk
            _ = 10 ^ k * 10 := by rw [pow_succ]
        have := ih f (n / 10) hk0 hndiv (by omega)
        rw [List.length_append]
        simp only [List.length_singleton]
        omega

theorem py04d_spec (n : Nat) (h : n < 10000) :
    (py04d n).length = 4 ∧ (py04d n).all Char.isDigit = true := by
  have hlen : (natDigits n).length ≤ 4 := by
    apply natDigitsGo_length_le 4 (n + 1) n (by omega) _ (by omega)
    calc n < 10000 := h
      _ = 10 ^ 4 := by norm_num
  have hall : (natDigits n).all Char.isDigit = true :=
    natDigitsGo_all_digit (n + 1) n (by omega)
  constructor
  · unfold py04d
    rw [List.length_append, List.length_replicate]
    omega
  · unfold py04d
    rw [List.all_append, hall, Bool.and_true]
    rw [List.all_eq_true]
    intro c hc
    rw [List.eq_of_mem_replicate hc]
    decide

theorem rand_suffix_spec (picks : List Nat) :
    (rand_suffix picks).length = picks.length ∧
    (rand_suffix picks).all (fun c => c ∈ SUFFIX_ALPHABET) = true := by
  constructor
  · unfold rand_suffix
    rw [List.length_map]
  · unfold rand_suffix
    rw [List.all_eq_true]
    intro c hc
    rw [List.mem_map] at hc
    obtain ⟨k, _, hk⟩ := hc
    have h36 : k % SUFFIX_ALPHABET.length < SUFFIX_ALPHABET.length := by
      apply Nat.mod_lt
      decide
    rw [List.getD_eq_getElem _ _ h36] at hk
    rw [← hk]
    simp only [decide_eq_true_eq]
    exact List.getElem_mem _

/-- C7 counterexample: for bot id 10000 the generated name is
`Bot10000_...` — its id field has five digits, so the name does not have
the claimed `Bot<4-digit-id>_<4 alphanumerics>` shape. -/
theorem bot_name_shape_fails_at_10000 :
    ¬ specNameForm (bot_name 10000 [0, 0, 0, 0]) := by
  intro h
  obtain ⟨d, s, heq, hd, _, hs, _⟩ := h
  have hlen : (bot_name 10000 [0, 0, 0, 0]).length = 13 := by decide
  rw [heq] at hlen
  simp only [List.length_append, List.length_cons] at hlen
  rw [hd, hs] at hlen
  simp at hlen

/-- C7 (amended): for every bot id below 10000, the generated login name
has the form `Bot<4-digit-id>_<4 random lowercase alphanumerics>` and the
password the form `Pw<4-digit-id>_<6 random lowercase alphanumerics>`
(for ids of 10000 and above, which the unbounded `--clients` option
permits, the id field is longer than four digits). -/
theorem bot_credentials_format (bot_id : Nat) (p4 p6 : List Nat)
    (hid : bot_id < 10000) (h4 : p4.length = 4) (h6 : p6.length = 6) :
    specNameForm (bot_name bot_id p4) ∧ specPasswordForm (bot_password bot_id p6) := by
  obtain ⟨hdl, hda⟩ := py04d_spec bot_id hid
  obtain ⟨h4l, h4a⟩ := rand_suffix_spec p4
  obtain ⟨h6l, h6a⟩ := rand_suffix_spec p6
  constructor
  · exact ⟨py04d bot_id, rand_suffix p4, rfl, hdl, hda, by rw [h4l, h4], h4a⟩
  · exact ⟨py04d bot_id, rand_suffix p6, rfl, hdl, hda, by rw [h6l, h6], h6a⟩

theorem bot_credentials_format_witness :
    specNameForm (bot_name 7 [0, 1, 2, 3]) ∧
    specPasswordForm (bot_password 7 [0, 1, 2, 3, 4, 5]) :=
  bot_credentials_format 7 [0, 1, 2, 3] [0, 1, 2, 3, 4, 5] (by decide) (by decide) (by decide)

/-- Whether `parse_area` succeeds on a file given as stem and lines. -/
def parseOk (f : Str × List Str) : Bool :=
  match parse_area f.1 f.2 with
  | .ok _ => true
  | .error _ => false

theorem convertFiles_all_ok (inputs : List (Str × List Str)) :
    ∀ written, inputs.all parseOk = true →
      (convertFiles inputs written).1.length = written.length + inputs.length ∧
      (convertFiles inputs written).2 = none := by
  induction inputs with
  | nil =>
    intro written _
    exact ⟨rfl, rfl⟩
  | cons f rest ih =>
    intro written hall
    rw [List.all_cons] at hall
    obtain ⟨hf, hrest⟩ := Bool.and_eq_true_iff.mp hall
    unfold convertFiles
    obtain ⟨stem, lines⟩ := f
    unfold parseOk at hf
    cases hp : parse_area stem lines with
    | error e => rw [hp] at hf; simp at hf
    | ok area =>
      dsimp only
      have := ih (written ++ [(slug stem ++ ".yaml".toList, renderArea area)]) hrest
      rw [this.1, this.2]
      refine ⟨?_, rfl⟩
      simp only [List.length_append, List.length_cons, List.length_nil]
      omega

/-- C8: with no input files of the expected format the converter raises
`SystemExit` and terminates with a non-zero status, writing nothing; and
when input files exist and every one of them parses, it converts them all,
writing exactly one output file per input and exiting normally. -/
theorem converter_exit_status (inputs : List (Str × List Str)) :
    (inputs = [] →
      (convert_main inputs).1 = [] ∧ (convert_main inputs).2.isSome = true) ∧
    (inputs ≠ [] → inputs.all parseOk = true →
      (convert_main inputs).1.length = inputs.length ∧ (convert_main inputs).2 = none) := by
  constructor
  · intro h
    subst h
    exact ⟨rfl, rfl⟩
  · intro hne hall
    unfold convert_main
    rw [if_neg hne]
    have := convertFiles_all_ok inputs [] hall
    rw [this.1, this.2]
    exact ⟨by simp, rfl⟩

/-- A minimal ROM area file with one room, used to exercise the
converter. -/
def toyAreaLines : List Str :=
  ["#ROOMS".toList, "#100".toList, "Test Room~".toList, "A room.".toList,
   "~".toList, "0 0 0".toList, "S".toList, "#0".toList]

theorem converter_exit_status_witness :
    (convert_main []).2.isSome = true ∧
    (convert_main [("toy".toList, toyAreaLines)]).1.length = 1 ∧
    (convert_main [("toy".toList, toyAreaLines)]).2 = none :=
  ⟨((converter_exit_status []).1 rfl).2,
    ((converter_exit_status [("toy".toList, toyAreaLines)]).2 (by decide) (by decide)).1,
    ((converter_exit_status [("toy".toList, toyAreaLines)]).2 (by decide) (by decide)).2⟩

/-- C8 counterexample: a directory with one `.are` file that contains no
rooms makes `parse_area` raise `ValueError`, so the run writes zero output
files for one input — not one output per input. -/
theorem converter_output_per_input_fails :
    (convert_main [("empty".toList, ([] : List Str))]).1.length ≠
      [("empty".toList, ([] : List Str))].length := by decide

theorem dictLookup_mem {α : Type} (k : Str) (d : List (Str × α))
    (h : (dictLookup k d).isSome = true) : ∃ v, (k, v) ∈ d := by
  unfold dictLookup at h
  cases hf : d.find? (fun e => e.1 == k) with
  | none => rw [hf] at h; simp at h
  | some e =>
    obtain ⟨k', v⟩ := e
    have hmem := List.mem_of_find?_eq_some hf
    have hp := List.find?_some hf
    rw [beq_iff_eq] at hp
    exact ⟨v, hp ▸ hmem⟩

theorem rid_mem_out_rooms (stem : Str) (rooms : List (Str × Room))
    (mobs : List (Str × Mob)) (items : List (Str × Item)) (t : Str)
    (h : (dictLookup t rooms).isSome = true) :
    ∃ q ∈ (build_output stem rooms mobs items).rooms, q.1 = rid t := by
  obtain ⟨v, hv⟩ := dictLookup_mem t rooms h
  exact ⟨_, List.mem_map.mpr ⟨(t, v), hv, rfl⟩, rfl⟩

/-- C10: the emitted configuration is referentially closed over rooms:
every exit of every emitted room targets a key of the emitted rooms map;
every emitted mob's `room` field is such a key and comes from a parsed mob
whose reset room was itself parsed (mobs without a parsed reset room are
dropped); and an emitted item carries a `room` key only when its reset room
is a parsed room, in which case that key is an emitted room key. -/
theorem converter_output_closed (stem : Str) (rooms : List (Str × Room))
    (mobs : List (Str × Mob)) (items : List (Str × Item)) :
    (∀ p ∈ (build_output stem rooms mobs items).rooms,
      ∀ x ∈ p.2.exits, ∃ q ∈ (build_output stem rooms mobs items).rooms, q.1 = x.2) ∧
    (∀ p ∈ (build_output stem rooms mobs items).mobs,
      (∃ q ∈ (build_output stem rooms mobs items).rooms, q.1 = p.2.room) ∧
      (∃ v m, (v, m) ∈ mobs ∧ p.1 = 'm' :: v ∧
        ∃ rv, m.room_vnum = some rv ∧ (dictLookup rv rooms).isSome = true ∧
          p.2.room = rid rv)) ∧
    (∀ p ∈ (build_output stem rooms mobs items).items, ∀ rr, p.2.room = some rr →
      (∃ q ∈ (build_output stem rooms mobs items).rooms, q.1 = rr) ∧
      (∃ v it, (v, it) ∈ items ∧ p.1 = 'i' :: v ∧
        ∃ rv, it.room_vnum = some rv ∧ (dictLookup rv rooms).isSome = true ∧
          rr = rid rv)) := by
  refine ⟨?_, ?_, ?_⟩
  · intro p hp x hx
    obtain ⟨e, he, hfe⟩ := List.mem_map.mp hp
    rw [← hfe] at hx
    simp only at hx
    obtain ⟨x0, hx0, hg⟩ := List.mem_filterMap.mp hx
    by_cases hlk : (dictLookup x0.2 rooms).isSome = true
    · rw [if_pos hlk] at hg
      cases hg
      exact rid_mem_out_rooms stem rooms mobs items x0.2 hlk
    · rw [if_neg hlk] at hg
      cases hg
  · intro p hp
    obtain ⟨e, he, hg⟩ := List.mem_filterMap.mp hp
    cases hrv : e.2.room_vnum with
    | none => rw [hrv] at hg; cases hg
    | some rv =>
      rw [hrv] at hg
      dsimp only at hg
      by_cases hlk : (dictLookup rv rooms).isSome = true
      · rw [if_pos hlk] at hg
        cases hg
        constructor
        · exact rid_mem_out_rooms stem rooms mobs items rv hlk
        · exact ⟨e.1, e.2, by rw [Prod.mk.eta]; exact he, rfl, rv, hrv, hlk, rfl⟩
      · rw [if_neg hlk] at hg
        cases hg
  · intro p hp rr hrr
    obtain ⟨e, he, hfe⟩ := List.mem_map.mp hp
    rw [← hfe] at hrr
    simp only at hrr
    cases hrv : e.2.room_vnum with
    | none => rw [hrv] at hrr; cases hrr
    | some rv =>
      rw [hrv] at hrr
      dsimp only at hrr
      by_cases hlk : (dictLookup rv rooms).isSome = true
      · rw [if_pos hlk] at hrr
        cases hrr
        constructor
        · exact rid_mem_out_rooms stem rooms mobs items rv hlk
        · refine ⟨e.1, e.2, by rw [Prod.mk.eta]; exact he, ?_, rv, hrv, hlk, rfl⟩
          rw [← hfe]
      · rw [if_neg hlk] at hrr
        cases hrr

/-- A one-room, one-mob, one-item parse result used to exercise
`build_output`. -/
def toyRooms : List (Str × Room) :=
  [("100".toList, ⟨"100".toList, "Test Room".toList, "A room.".toList,
    [("north".toList, "100".toList)]⟩)]

def toyMobs : List (Str × Mob) :=
  [("5".toList, ⟨"5".toList, "a rat".toList, some "100".toList⟩)]

def toyItems : List (Str × Item) :=
  [("9".toList, ⟨"9".toList, "a lantern".toList, some "100".toList⟩)]

theorem converter_output_closed_witness :
    ∃ q ∈ (build_output "toy".toList toyRooms toyMobs toyItems).rooms,
      q.1 = 'r' :: "100".toList :=
  ((converter_output_closed "toy".toList toyRooms toyMobs toyItems).2.1
    ('m' :: "5".toList, { name := "a rat".toList, room := 'r' :: "100".toList })
    (by decide)).1
